import Mathlib

/-!
Shallow embedding of the qazuor/reactCustomHooks library (the canonical,
option-rich hook implementations) together with theorems settling the
frozen claims about its specification.

Modelling conventions:
- React state cells become explicit values threaded through functions; a
  `setState` with an updater is modelled by applying the updater to the
  current value (one operation per render, so the closure snapshot and the
  updater argument coincide).
- JavaScript exceptions become `Except`; a `try/catch` block is a `match`
  on the `Except` value, the `catch` arm receiving the error.
- Caller-supplied callbacks (`onFull`, `onEmpty`, `onError`, `onLeave`)
  are tracked by invocation counts in the result structures.
- Timers become explicit data: an armed timer is the pair of its remaining
  duration and what it will do on fire; elapsing time is an explicit event.
- JavaScript string/number truthiness (`if (item)`, `if (maxSize)`) is
  modelled by explicit emptiness / zero / null tests.
-/

namespace UseQueue

/-- Result of one `dequeue()` call of `useQueue` (src/hooks/useQueue.ts):
the returned item, the queue after the update, and how many times the
caller-supplied `onEmpty` callback was invoked. -/
structure DequeueResult (T : Type) where
  returned : Option T
  queue : List T
  onEmptyCalls : ℕ
  deriving DecidableEq, Repr

/-- `dequeue` from src/hooks/useQueue.ts: if the queue is empty, return
`undefined` (here `none`) without scheduling a state update; otherwise take
`queue[0]`, set the state to `queue.slice(1)`, and invoke `onEmpty` when a
non-empty queue became empty. -/
def dequeue {T : Type} (queue : List T) : DequeueResult T :=
  if queue.length = 0 then
    ⟨none, queue, 0⟩
  else
    let itemToDequeue := queue.head?
    let newQueue := queue.drop 1
    ⟨itemToDequeue, newQueue, if 0 < queue.length ∧ newQueue.length = 0 then 1 else 0⟩

/-- Result of one `enqueue(item)` call: the queue after the update and how
many times `onFull` was invoked. -/
structure EnqueueResult (T : Type) where
  queue : List T
  onFullCalls : ℕ
  deriving DecidableEq, Repr

/-- `enqueue` from src/hooks/useQueue.ts: `if (maxSize && q.length >= maxSize)`
reject the item and call `onFull`, else append.  JavaScript number truthiness
makes `maxSize = 0` (and `undefined`, here `none`) skip the capacity check. -/
def enqueue {T : Type} (maxSize : Option ℕ) (q : List T) (item : T) : EnqueueResult T :=
  match maxSize with
  | some m => if m ≠ 0 ∧ m ≤ q.length then ⟨q, 1⟩ else ⟨q ++ [item], 0⟩
  | none => ⟨q ++ [item], 0⟩

/-- One user-visible queue operation. -/
inductive QueueOp (T : Type) where
  | enq (item : T)
  | deq
  deriving DecidableEq, Repr

/-- Accumulated observable state of a `useQueue` scenario: the queue, the
values returned by the dequeues in order, and the callback counts. -/
structure QueueRun (T : Type) where
  queue : List T
  dequeued : List (Option T)
  onEmptyCalls : ℕ
  onFullCalls : ℕ
  deriving DecidableEq, Repr

/-- Apply one queue operation (one render with one state update). -/
def queueStep {T : Type} (maxSize : Option ℕ) (s : QueueRun T) : QueueOp T → QueueRun T
  | .enq item =>
    let r := enqueue maxSize s.queue item
    { s with queue := r.queue, onFullCalls := s.onFullCalls + r.onFullCalls }
  | .deq =>
    let r := dequeue s.queue
    { queue := r.queue
      dequeued := s.dequeued ++ [r.returned]
      onEmptyCalls := s.onEmptyCalls + r.onEmptyCalls
      onFullCalls := s.onFullCalls }

/-- Run a list of queue operations from an initial queue. -/
def runQueue {T : Type} (maxSize : Option ℕ) (init : List T) (ops : List (QueueOp T)) : QueueRun T :=
  ops.foldl (queueStep maxSize) ⟨init, [], 0, 0⟩

end UseQueue

namespace UseLocalStorage

/-- Observable outcome of the lazy `useState` initializer of
`useLocalStorage` (the canonical implementation with `StorageOptions`):
the adopted initial state, the store entry at `key` afterwards, and the
invocation counts of `onError` and of the deserializer. -/
structure InitResult (T : Type) where
  value : T
  entry : Option String
  onErrorCalls : ℕ
  deserializerCalls : ℕ
  deriving DecidableEq, Repr

/-- The initializer of `useLocalStorage`:
`item = localStorage.getItem(key)`; `if (item) return deserializer(item)`
(JavaScript string truthiness: `null` and the empty string are falsy);
otherwise `localStorage.setItem(key, serializer(initialValue))` and adopt
`initialValue`.  A throw anywhere in the `try` block reaches the `catch`,
which calls `onError` and adopts `initialValue`, leaving the entry as it was. -/
def initStoredValue {T E : Type} (item : Option String)
    (serializer : T → Except E String) (deserializer : String → Except E T)
    (initialValue : T) : InitResult T :=
  match item with
  | some s =>
    if s ≠ "" then
      match deserializer s with
      | .ok v => ⟨v, some s, 0, 1⟩
      | .error _ => ⟨initialValue, some s, 1, 1⟩
    else
      match serializer initialValue with
      | .ok t => ⟨initialValue, some t, 0, 0⟩
      | .error _ => ⟨initialValue, some s, 1, 0⟩
  | none =>
    match serializer initialValue with
    | .ok t => ⟨initialValue, some t, 0, 0⟩
    | .error _ => ⟨initialValue, none, 1, 0⟩

/-- Observable outcome of one `setValue` call: the in-memory state after the
updater ran, the store entry at `key` afterwards, and the `onError` count. -/
structure SetValueResult (T : Type) where
  value : T
  entry : Option String
  onErrorCalls : ℕ
  deriving DecidableEq, Repr

/-- `setValue` of `useLocalStorage`: inside the `setStoredValue` updater,
compute `newValue` (direct value or `updater(prev)`), write
`serializer(newValue)` to the store, and return `newValue` as the new
state; if the serialization or the store write throws, `onError` runs and
`prev` is returned (state and store unchanged).  The updater form is the
`Sum.inr` case.  `setItemOk = false` models `localStorage.setItem`
throwing (e.g. quota exceeded). -/
def setValue {T E : Type} (prev : T) (entry : Option String) (update : T ⊕ (T → T))
    (serializer : T → Except E String) (setItemOk : Bool) : SetValueResult T :=
  let newValue := match update with | .inl v => v | .inr f => f prev
  match serializer newValue with
  | .ok s => if setItemOk then ⟨newValue, some s, 0⟩ else ⟨prev, entry, 1⟩
  | .error _ => ⟨prev, entry, 1⟩

end UseLocalStorage

namespace UseCopyToClipboard

/-- The hook state of `useCopyToClipboard` (src/hooks/useCopyToClipboard.ts). -/
structure ClipState (E : Type) where
  copied : Bool
  error : Option E
  deriving DecidableEq, Repr

/-- Outcome of one `copy(text)` call: the state after it settled and the
auto-reset timer that is pending afterwards (its delay in ms), `none` when
no timer is armed. -/
structure CopyResult (E : Type) where
  state : ClipState E
  timer : Option ℕ
  deriving DecidableEq, Repr

/-- `copy` of `useCopyToClipboard`: first `clearTimeout` on any pending
auto-reset timer (so `pending` is discarded), then
`navigator.clipboard.writeText(text)` (its outcome is `writeResult`); on
success set `{ copied: true, error: null }` and arm the 2000 ms auto-reset
timer; on rejection the `catch` sets `{ copied: false, error: err }` and no
timer is armed.  The function is total: no error escapes the hook. -/
def copy {E : Type} (st : ClipState E) (pending : Option ℕ)
    (writeResult : Except E Unit) : CopyResult E :=
  match st, pending, writeResult with
  | _, _, .ok _ => ⟨⟨true, none⟩, some 2000⟩
  | _, _, .error e => ⟨⟨false, some e⟩, none⟩

/-- The auto-reset timer callback: `setState(prev => ({ ...prev, copied: false }))`
— clears `copied`, leaves `error` untouched. -/
def autoResetFire {E : Type} (st : ClipState E) : ClipState E :=
  { st with copied := false }

end UseCopyToClipboard

namespace UseDebounce

/-- The observable state of `useDebounce` (src/hooks/useDebounce.ts): the
committed debounced value, plus the pending commit timer when one is armed
(remaining milliseconds before it fires, and the value it will commit). -/
structure DebounceState (T : Type) where
  debounced : T
  pending : Option (ℕ × T)
  deriving DecidableEq, Repr

/-- An event driving `useDebounce` with `immediate = false` and fixed `delay`:
a re-render with a new `value` argument, or one millisecond of time passing. -/
inductive DebounceEvent (T : Type) where
  | render (v : T)
  | tick
  deriving DecidableEq, Repr

/-- One step of `useDebounce` with `immediate = false`.  A re-render with a
new value runs the effect: `clearTimeout` on any pending timer, then
`setTimeout(() => setDebouncedValue(value), delay)`.  A tick advances the
pending timer by 1 ms; when it fires, the captured value is committed. -/
def debStep {T : Type} (delay : ℕ) (s : DebounceState T) : DebounceEvent T → DebounceState T
  | .render v => ⟨s.debounced, some (delay, v)⟩
  | .tick =>
    match s.pending with
    | none => s
    | some (r, v) => if r ≤ 1 then ⟨v, none⟩ else ⟨s.debounced, some (r - 1, v)⟩

/-- Run a sequence of debounce events. -/
def debRun {T : Type} (delay : ℕ) (s : DebounceState T) (evs : List (DebounceEvent T)) :
    DebounceState T :=
  evs.foldl (debStep delay) s

/-- A burst of re-renders: each pair `(v, g)` is a re-render with value `v`
followed by `g` milliseconds of quiet. -/
def rapidEvents {T : Type} : List (T × ℕ) → List (DebounceEvent T)
  | [] => []
  | (v, g) :: rest =>
    DebounceEvent.render v :: (List.replicate g DebounceEvent.tick ++ rapidEvents rest)

end UseDebounce

namespace UseTimeout

/-- The observable state of `useTimeout` (src/hooks/useTimeout.ts, the
canonical implementation returning `{ isPending, start, cancel, reset }`):
the armed timer's remaining delay (`none` when idle), the `isPending` flag,
and how many times the callback has fired. -/
structure TimeoutState where
  timer : Option ℕ
  isPending : Bool
  fired : ℕ
  deriving DecidableEq, Repr

/-- The operations a caller (or the clock) can perform after mount. -/
inductive TimeoutOp where
  | start
  | cancel
  | reset
  | tick
  deriving DecidableEq, Repr

/-- `clear`: `clearTimeout` on any armed timer and `setIsPending(false)`. -/
def clear (s : TimeoutState) : TimeoutState :=
  { s with timer := none, isPending := false }

/-- `start`: `clear()`, then — only when `delay !== null` — set
`isPending = true` and arm a timer for `delay` ms. -/
def start (delay : Option ℕ) (s : TimeoutState) : TimeoutState :=
  let s' := clear s
  match delay with
  | some d => { s' with timer := some d, isPending := true }
  | none => s'

/-- One millisecond elapses; an armed timer that reaches zero fires the
callback, sets `isPending = false` and disarms itself. -/
def tick (s : TimeoutState) : TimeoutState :=
  match s.timer with
  | none => s
  | some r =>
    if r ≤ 1 then { timer := none, isPending := false, fired := s.fired + 1 }
    else { s with timer := some (r - 1) }

/-- Apply one operation (`cancel` is `clear`, `reset` is `clear` then `start`). -/
def step (delay : Option ℕ) (s : TimeoutState) : TimeoutOp → TimeoutState
  | .start => start delay s
  | .cancel => clear s
  | .reset => start delay (clear s)
  | .tick => tick s

/-- Mount: the state starts idle; the auto-start effect runs `start()` only
when `autoStart && delay !== null`. -/
def mount (delay : Option ℕ) (autoStart : Bool) : TimeoutState :=
  if autoStart ∧ delay ≠ none then start delay ⟨none, false, 0⟩ else ⟨none, false, 0⟩

/-- Run a sequence of operations from a fresh mount. -/
def run (delay : Option ℕ) (autoStart : Bool) (ops : List TimeoutOp) : TimeoutState :=
  ops.foldl (step delay) (mount delay autoStart)

end UseTimeout

namespace UseHandledInterval

/-- `getRandomDelay` of `useHandledInterval` (the canonical implementation
with `minDelay`): when `random` is false, return the current delay;
otherwise `Math.floor(Math.random() * (currentDelay - minDelay)) + minDelay`.
The `Math.random()` sample is the argument `r`, a rational in `[0, 1]`. -/
def getRandomDelay (random : Bool) (currentDelay minDelay : ℤ) (r : ℚ) : ℤ :=
  if !random then currentDelay
  else ⌊r * ((currentDelay : ℚ) - (minDelay : ℚ))⌋ + minDelay

/-- The timer state established by `start` of `useHandledInterval`: the
period of the armed `setInterval`, whether its handler is the sampling
wrapper closure from `start` (`true`) or the bare `callbackRef.current`
passed to the inner `setInterval` (`false`), and how many `Math.random()`
samples have been consumed so far. -/
structure HIState where
  period : ℤ
  handlerIsWrapper : Bool
  rIdx : ℕ
  deriving DecidableEq, Repr

/-- `start`: sample `nextIntervalDelay = getRandomDelay()` (consuming the
first element of the random stream `rs`) and arm `setInterval` with the
wrapper closure at that period. -/
def hiStart (random : Bool) (delay minDelay : ℤ) (rs : ℕ → ℚ) : HIState :=
  ⟨getRandomDelay random delay minDelay (rs 0), true, 1⟩

/-- One firing of the armed interval.  The callback runs; then, only when
the firing handler is the wrapper from `start` and `random` is set, the
wrapper clears the interval, samples a fresh delay, and arms
`setInterval(callbackRef.current, nextIntervalDelay.current)` — whose
handler is the bare callback, so later firings change nothing. -/
def hiFire (random : Bool) (delay minDelay : ℤ) (rs : ℕ → ℚ) (s : HIState) : HIState :=
  if s.handlerIsWrapper ∧ random then
    ⟨getRandomDelay random delay minDelay (rs s.rIdx), false, s.rIdx + 1⟩
  else s

/-- The waits (in ms) before each of the next `n` firings, starting from
timer state `s`: each wait is the period of the currently armed interval. -/
def hiWaitsFrom (random : Bool) (delay minDelay : ℤ) (rs : ℕ → ℚ) :
    ℕ → HIState → List ℤ
  | 0, _ => []
  | n + 1, s => s.period :: hiWaitsFrom random delay minDelay rs n (hiFire random delay minDelay rs s)

/-- The first `n` waits between consecutive callback firings after `start`. -/
def hiWaits (random : Bool) (delay minDelay : ℤ) (rs : ℕ → ℚ) (n : ℕ) : List ℤ :=
  hiWaitsFrom random delay minDelay rs n (hiStart random delay minDelay rs)

/-- The random stream fixed by the claim: `Math.random()` returns 0, 0.5
and 1 in sequence. -/
def rsSpec : ℕ → ℚ
  | 0 => 0
  | 1 => 1/2
  | _ => 1

end UseHandledInterval

namespace UsePageLeave

/-- Outcome of one `handleMouseOut` invocation of `usePageLeave`
(the canonical implementation): the `hasLeft` state afterwards and whether
`onLeave` was invoked (0 or 1 times). -/
structure MouseOutResult where
  hasLeft : Bool
  onLeaveCalls : ℕ
  deriving DecidableEq, Repr

/-- `handleMouseOut`: `if (!isEnabled) return; if (e.clientY <= threshold)
{ setHasLeft(true); onLeave?.(); }` — note it neither reads nor branches on
the current `hasLeft`. -/
def handleMouseOut (isEnabled : Bool) (threshold : ℤ) (hasLeft : Bool)
    (clientY : ℤ) : MouseOutResult :=
  if !isEnabled then ⟨hasLeft, 0⟩
  else if clientY ≤ threshold then ⟨true, 1⟩
  else ⟨hasLeft, 0⟩

/-- Process a sequence of mouse-out events (their `clientY` coordinates),
with no intervening mouse-over events; returns the final `hasLeft` and the
total number of `onLeave` invocations. -/
def runMouseOuts (isEnabled : Bool) (threshold : ℤ) (hasLeft : Bool) :
    List ℤ → Bool × ℕ
  | [] => (hasLeft, 0)
  | y :: ys =>
    let r := handleMouseOut isEnabled threshold hasLeft y
    let rest := runMouseOuts isEnabled threshold r.hasLeft ys
    (rest.1, r.onLeaveCalls + rest.2)

end UsePageLeave

/-- A concrete serializer for witnesses: `n` is encoded as `n` copies of `a`. -/
def witSer : ℕ → Except Unit String :=
  fun n => .ok (String.mk (List.replicate n 'a'))

/-- A concrete serializer for witnesses that always throws. -/
def witSerBad : ℕ → Except Unit String :=
  fun _ => .error ()

/-- A concrete deserializer for witnesses: accepts exactly the text `ok`. -/
def witDe : String → Except Unit ℕ :=
  fun s => if s = "ok" then .ok 7 else .error ()

/-- Claim C1 (code bug): the spec says that with `random = true` each wait is
independently sampled as `floor(random() * (delay - minDelay)) + minDelay`,
a fresh one-shot timer being armed after each firing, so that with
`delay = 1000`, `minDelay = 500` and the randomness source returning 0, 0.5, 1
the first three waits are 500, 750 and 1000 ms.  The code instead re-samples
only inside the wrapper closure of the first `setInterval`; the interval it
then arms runs the bare callback at a fixed period, so the third sample is
never consumed and the waits are 500, 750, 750. -/
theorem useHandledInterval_random_waits :
    UseHandledInterval.hiWaits true 1000 500 UseHandledInterval.rsSpec 3 = [500, 750, 750] ∧
    UseHandledInterval.hiWaits true 1000 500 UseHandledInterval.rsSpec 3 ≠ [500, 750, 1000] := by
  have h : UseHandledInterval.hiWaits true 1000 500 UseHandledInterval.rsSpec 3
      = [500, 750, 750] := by
    simp [UseHandledInterval.hiWaits, UseHandledInterval.hiWaitsFrom,
      UseHandledInterval.hiStart, UseHandledInterval.hiFire,
      UseHandledInterval.getRandomDelay, UseHandledInterval.rsSpec]
    norm_num
  refine ⟨h, ?_⟩
  rw [h]
  decide

/-- Claim C3: `dequeue` removes and returns the head item (FIFO); a dequeue
that empties a non-empty queue fires `onEmpty` exactly once; a dequeue on an
empty queue returns `none` and fires no callback.  Concretely, from the empty
queue, enqueue 1, 2, 3 followed by four dequeues yields 1, 2, 3, then an
absent value, with `onEmpty` fired exactly once (by the third dequeue). -/
theorem useQueue_dequeue_fifo :
    (∀ (T : Type) (x : T) (rest : List T),
        UseQueue.dequeue (x :: rest) =
          ⟨some x, rest, if rest.length = 0 then 1 else 0⟩) ∧
    (∀ (T : Type), UseQueue.dequeue ([] : List T) = ⟨none, [], 0⟩) ∧
    UseQueue.runQueue none ([] : List ℤ)
        [.enq 1, .enq 2, .enq 3, .deq, .deq, .deq, .deq] =
      ⟨[], [some 1, some 2, some 3, none], 1, 0⟩ := by
  refine ⟨?_, fun T => rfl, by decide⟩
  intro T x rest
  cases rest <;> simp [UseQueue.dequeue]

/-- Claim C5: `copy(text)` cancels any pending auto-reset timer, then on
clipboard-write success sets `copied = true`, `error = absent` and arms a
2000 ms auto-reset timer whose firing sets `copied = false` leaving `error`
untouched; on failure it sets `copied = false` and `error` to the thrown
error, arming no timer; in all cases the error is absorbed, never thrown. -/
theorem useCopyToClipboard_copy_spec :
    (∀ (E : Type) (st : UseCopyToClipboard.ClipState E) (pending : Option ℕ),
        UseCopyToClipboard.copy st pending (.ok ()) = ⟨⟨true, none⟩, some 2000⟩) ∧
    (∀ (E : Type) (st : UseCopyToClipboard.ClipState E) (pending : Option ℕ) (e : E),
        UseCopyToClipboard.copy st pending (.error e) = ⟨⟨false, some e⟩, none⟩) ∧
    (∀ (E : Type) (st : UseCopyToClipboard.ClipState E),
        UseCopyToClipboard.autoResetFire st = ⟨false, st.error⟩) :=
  ⟨fun _ _ _ => rfl, fun _ _ _ _ => rfl, fun _ _ => rfl⟩

/-- Claim C7: with `maxSize` set, an `enqueue` on a queue already at capacity
leaves the queue unchanged and fires `onFull` exactly once per rejected
enqueue; with `maxSize = 2`, enqueueing 1, 2, 3 leaves the queue at `[1, 2]`
with `onFull` fired once. -/
theorem useQueue_maxSize_reject (m : ℕ) (hm : m ≠ 0) :
    (∀ (T : Type) (q : List T) (item : T), m ≤ q.length →
        UseQueue.enqueue (some m) q item = ⟨q, 1⟩) ∧
    UseQueue.runQueue (some 2) ([] : List ℤ) [.enq 1, .enq 2, .enq 3] =
      ⟨[1, 2], [], 0, 1⟩ := by
  refine ⟨?_, by decide⟩
  intro T q item hq
  simp [UseQueue.enqueue, hm, hq]

/-- Witness for C7 at `m = 2`, queue `[10, 20]`, rejected item `30`. -/
theorem useQueue_maxSize_reject_witness :
    (2 : ℕ) ≠ 0 ∧ 2 ≤ ([10, 20] : List ℤ).length ∧
    UseQueue.enqueue (some 2) ([10, 20] : List ℤ) 30 = ⟨[10, 20], 1⟩ ∧
    UseQueue.runQueue (some 2) ([] : List ℤ) [.enq 1, .enq 2, .enq 3] =
      ⟨[1, 2], [], 0, 1⟩ :=
  ⟨by decide, by decide,
    (useQueue_maxSize_reject 2 (by decide)).1 ℤ [10, 20] 30 (by decide),
    (useQueue_maxSize_reject 2 (by decide)).2⟩

/-- Claim C8: with `delay = null`, for every sequence of operations (any
`autoStart`, `start`, `cancel`, `reset`, any elapse of time) the callback
never fires and `isPending` is false in every reachable state. -/
theorem useTimeout_null_delay (autoStart : Bool) (ops : List UseTimeout.TimeoutOp) :
    (UseTimeout.run none autoStart ops).fired = 0 ∧
    (UseTimeout.run none autoStart ops).isPending = false := by
  have hstep : ∀ op, UseTimeout.step none ⟨none, false, 0⟩ op = ⟨none, false, 0⟩ := by
    intro op
    cases op <;> rfl
  have hfold : ∀ l, List.foldl (UseTimeout.step none) ⟨none, false, 0⟩ l = ⟨none, false, 0⟩ := by
    intro l
    induction l with
    | nil => rfl
    | cons op l ih => rw [List.foldl_cons, hstep]; exact ih
  have hmount : UseTimeout.mount none autoStart = ⟨none, false, 0⟩ := by
    simp [UseTimeout.mount]
  rw [UseTimeout.run, hmount, hfold]
  exact ⟨rfl, rfl⟩

/-- Claim C2: at initialization of `useLocalStorage`, a present entry is
deserialized and adopted; if deserialization throws, `onError` runs exactly
once, `initialValue` is adopted, and the failing entry is left untouched;
an absent entry is filled with the serialized `initialValue`, which is
adopted. -/
theorem useLocalStorage_initialization {T E : Type}
    (ser : T → Except E String) (de : String → Except E T) (init : T) :
    (∀ (s : String) (v : T), s ≠ "" → de s = .ok v →
        UseLocalStorage.initStoredValue (some s) ser de init = ⟨v, some s, 0, 1⟩) ∧
    (∀ (s : String) (e : E), s ≠ "" → de s = .error e →
        UseLocalStorage.initStoredValue (some s) ser de init = ⟨init, some s, 1, 1⟩) ∧
    (∀ (t : String), ser init = .ok t →
        UseLocalStorage.initStoredValue none ser de init = ⟨init, some t, 0, 0⟩) := by
  refine ⟨?_, ?_, ?_⟩
  · intro s v hs hok
    simp [UseLocalStorage.initStoredValue, hs, hok]
  · intro s e hs herr
    simp [UseLocalStorage.initStoredValue, hs, herr]
  · intro t ht
    simp [UseLocalStorage.initStoredValue, ht]

/-- Witness for C2: a deserializable entry, a malformed entry, and an absent
entry, against concrete serializer and deserializer. -/
theorem useLocalStorage_initialization_witness :
    (("ok" : String) ≠ "" ∧ witDe ("ok") = Except.ok 7 ∧
      UseLocalStorage.initStoredValue (some ("ok")) witSer witDe 2 = ⟨7, some ("ok"), 0, 1⟩) ∧
    (("bad" : String) ≠ "" ∧ witDe ("bad") = Except.error () ∧
      UseLocalStorage.initStoredValue (some ("bad")) witSer witDe 2 = ⟨2, some ("bad"), 1, 1⟩) ∧
    (witSer 2 = Except.ok ("aa") ∧
      UseLocalStorage.initStoredValue none witSer witDe 2 = ⟨2, some ("aa"), 0, 0⟩) :=
  ⟨⟨by decide, rfl,
      (useLocalStorage_initialization witSer witDe 2).1 ("ok") 7 (by decide) rfl⟩,
   ⟨by decide, rfl,
      (useLocalStorage_initialization witSer witDe 2).2.1 ("bad") () (by decide) rfl⟩,
   ⟨rfl, (useLocalStorage_initialization witSer witDe 2).2.2 ("aa") rfl⟩⟩

/-- Claim C4: `setValue` (value or updater form) computes the new value,
serializes and writes it, then commits the state; if the write throws —
either the serializer or the store write itself — `onError` runs, the state
and the entry are unchanged, and nothing escapes the hook (`setValue` is a
total function into `SetValueResult`). -/
theorem useLocalStorage_setValue_spec {T E : Type} (prev : T) (entry : Option String)
    (ser : T → Except E String) :
    (∀ (v : T) (s : String), ser v = .ok s →
        UseLocalStorage.setValue prev entry (.inl v) ser true = ⟨v, some s, 0⟩) ∧
    (∀ (f : T → T) (s : String), ser (f prev) = .ok s →
        UseLocalStorage.setValue prev entry (.inr f) ser true = ⟨f prev, some s, 0⟩) ∧
    (∀ (update : T ⊕ (T → T)),
        UseLocalStorage.setValue prev entry update ser false = ⟨prev, entry, 1⟩) ∧
    (∀ (v : T) (e : E), ser v = .error e →
        UseLocalStorage.setValue prev entry (.inl v) ser true = ⟨prev, entry, 1⟩) := by
  refine ⟨?_, ?_, ?_, ?_⟩
  · intro v s hok
    simp [UseLocalStorage.setValue, hok]
  · intro f s hok
    simp [UseLocalStorage.setValue, hok]
  · intro update
    cases update with
    | inl v =>
      rcases h : ser v with s | e <;> simp [UseLocalStorage.setValue, h]
    | inr f =>
      rcases h : ser (f prev) with s | e <;> simp [UseLocalStorage.setValue, h]
  · intro v e herr
    simp [UseLocalStorage.setValue, herr]

/-- Witness for C4: direct and updater form with a succeeding write, a
failing store write, and a throwing serializer, at concrete values. -/
theorem useLocalStorage_setValue_spec_witness :
    (witSer 2 = Except.ok ("aa") ∧
      UseLocalStorage.setValue 1 none (.inl 2) witSer true = ⟨2, some ("aa"), 0⟩) ∧
    (witSer (Nat.succ 1) = Except.ok ("aa") ∧
      UseLocalStorage.setValue 1 none (.inr Nat.succ) witSer true =
        ⟨Nat.succ 1, some ("aa"), 0⟩) ∧
    UseLocalStorage.setValue 1 none (.inl 2) witSer false = ⟨1, none, 1⟩ ∧
    (witSerBad 2 = Except.error () ∧
      UseLocalStorage.setValue 1 none (.inl 2) witSerBad true = ⟨1, none, 1⟩) :=
  ⟨⟨rfl, (useLocalStorage_setValue_spec 1 none witSer).1 2 ("aa") rfl⟩,
   ⟨rfl, (useLocalStorage_setValue_spec 1 none witSer).2.1 Nat.succ ("aa") rfl⟩,
   (useLocalStorage_setValue_spec 1 none witSer).2.2.1 (.inl 2),
   ⟨rfl, (useLocalStorage_setValue_spec 1 none witSerBad).2.2.2 2 () rfl⟩⟩

/-- Claim C9: an entry whose stored text is the empty string is treated at
initialization as if the key were absent — JavaScript's `if (item)` is
falsy on the empty string — so the deserializer is never called, the entry
is overwritten with the serialized `initialValue`, and `initialValue` is
adopted. -/
theorem useLocalStorage_empty_entry {T E : Type}
    (ser : T → Except E String) (de : String → Except E T) (init : T)
    (t : String) (hser : ser init = .ok t) :
    UseLocalStorage.initStoredValue (some ("")) ser de init = ⟨init, some t, 0, 0⟩ := by
  simp [UseLocalStorage.initStoredValue, hser]

/-- Witness for C9 at a concrete serializer and initial value. -/
theorem useLocalStorage_empty_entry_witness :
    witSer 2 = Except.ok ("aa") ∧
    UseLocalStorage.initStoredValue (some ("")) witSer witDe 2 = ⟨2, some ("aa"), 0, 0⟩ :=
  ⟨rfl, useLocalStorage_empty_entry witSer witDe 2 ("aa") rfl⟩

/-- Claim C10: while enabled, every mouse-out event with vertical coordinate
at or below the threshold sets `hasLeft = true` and invokes `onLeave`, even
when `hasLeft` is already true; `n` qualifying events with no intervening
mouse-over invoke `onLeave` exactly `n` times. -/
theorem usePageLeave_mouseOut_calls (threshold : ℤ) :
    (∀ (hasLeft : Bool) (y : ℤ), y ≤ threshold →
        UsePageLeave.handleMouseOut true threshold hasLeft y = ⟨true, 1⟩) ∧
    (∀ (hasLeft : Bool) (ys : List ℤ), (∀ y ∈ ys, y ≤ threshold) →
        (UsePageLeave.runMouseOuts true threshold hasLeft ys).2 = ys.length ∧
        (UsePageLeave.runMouseOuts true threshold hasLeft ys).1 =
          (if ys = [] then hasLeft else true)) := by
  have hone : ∀ (hasLeft : Bool) (y : ℤ), y ≤ threshold →
      UsePageLeave.handleMouseOut true threshold hasLeft y = ⟨true, 1⟩ := by
    intro hasLeft y hy
    simp [UsePageLeave.handleMouseOut, hy]
  refine ⟨hone, ?_⟩
  intro hasLeft ys
  induction ys generalizing hasLeft with
  | nil => exact fun _ => ⟨rfl, rfl⟩
  | cons y ys ih =>
    intro hall
    have hy : y ≤ threshold := hall y (List.mem_cons_self y ys)
    have hys : ∀ z ∈ ys, z ≤ threshold := fun z hz => hall z (List.mem_cons_of_mem y hz)
    have h1 := hone hasLeft y hy
    have ihtrue := ih true hys
    have hrest1 : (UsePageLeave.runMouseOuts true threshold true ys).1 = true := by
      rw [ihtrue.2]
      exact ite_self true
    constructor
    · simp [UsePageLeave.runMouseOuts, h1, ihtrue.1, Nat.add_comm]
    · simp [UsePageLeave.runMouseOuts, h1, hrest1]

/-- Witness for C10: threshold 0, three qualifying events, starting both
from `hasLeft = true` (single event) and `hasLeft = false` (the run). -/
theorem usePageLeave_mouseOut_calls_witness :
    ((0 : ℤ) ≤ 0 ∧ UsePageLeave.handleMouseOut true 0 true 0 = ⟨true, 1⟩) ∧
    ((∀ y ∈ ([0, -5, 0] : List ℤ), y ≤ 0) ∧
      (UsePageLeave.runMouseOuts true 0 false [0, -5, 0]).2 = ([0, -5, 0] : List ℤ).length ∧
      (UsePageLeave.runMouseOuts true 0 false [0, -5, 0]).1 =
        (if ([0, -5, 0] : List ℤ) = [] then false else true)) :=
  ⟨⟨by decide, (usePageLeave_mouseOut_calls 0).1 true 0 (by decide)⟩,
   ⟨by decide, (usePageLeave_mouseOut_calls 0).2 false [0, -5, 0] (by decide)⟩⟩

/-- Running a debounce event at the head of a list is one step then the rest. -/
theorem debRun_cons {T : Type} (delay : ℕ) (s : UseDebounce.DebounceState T)
    (e : UseDebounce.DebounceEvent T) (l : List (UseDebounce.DebounceEvent T)) :
    UseDebounce.debRun delay s (e :: l) =
      UseDebounce.debRun delay (UseDebounce.debStep delay s e) l := rfl

/-- Running a concatenation of debounce event lists composes. -/
theorem debRun_append {T : Type} (delay : ℕ) (s : UseDebounce.DebounceState T)
    (l1 l2 : List (UseDebounce.DebounceEvent T)) :
    UseDebounce.debRun delay s (l1 ++ l2) =
      UseDebounce.debRun delay (UseDebounce.debRun delay s l1) l2 :=
  List.foldl_append _ _ l1 l2

/-- With no pending commit, time passing changes nothing. -/
theorem debRun_ticks_noop {T : Type} (delay : ℕ) (d : T) (n : ℕ) :
    UseDebounce.debRun delay ⟨d, none⟩ (List.replicate n UseDebounce.DebounceEvent.tick) =
      ⟨d, none⟩ := by
  induction n with
  | zero => rfl
  | succ n ih =>
    rw [List.replicate_succ, debRun_cons]
    exact ih

/-- Fewer ticks than the pending timer's remainder: the commit does not fire,
the remainder just shrinks. -/
theorem debRun_ticks_partial {T : Type} (delay : ℕ) (d v : T) (g : ℕ) :
    ∀ r : ℕ, g < r →
      UseDebounce.debRun delay ⟨d, some (r, v)⟩
          (List.replicate g UseDebounce.DebounceEvent.tick) =
        ⟨d, some (r - g, v)⟩ := by
  induction g with
  | zero => intro r _; rfl
  | succ g ih =>
    intro r hr
    have h1 : ¬ r ≤ 1 := by omega
    rw [List.replicate_succ, debRun_cons]
    have hstep : UseDebounce.debStep delay ⟨d, some (r, v)⟩ UseDebounce.DebounceEvent.tick =
        ⟨d, some (r - 1, v)⟩ := by
      simp [UseDebounce.debStep, h1]
    rw [hstep, ih (r - 1) (by omega)]
    have : r - 1 - g = r - (g + 1) := by omega
    rw [this]

/-- At least as many ticks as the pending timer's remainder: the timer fires
and commits its captured value. -/
theorem debRun_ticks_commit {T : Type} (delay : ℕ) (v : T) (n : ℕ) :
    ∀ (d : T) (r : ℕ), 1 ≤ r → r ≤ n →
      UseDebounce.debRun delay ⟨d, some (r, v)⟩
          (List.replicate n UseDebounce.DebounceEvent.tick) =
        ⟨v, none⟩ := by
  induction n with
  | zero => intro d r h1 h2; exact absurd (h1.trans h2) (by omega)
  | succ n ih =>
    intro d r h1 h2
    rw [List.replicate_succ, debRun_cons]
    by_cases hr : r ≤ 1
    · have hstep : UseDebounce.debStep delay ⟨d, some (r, v)⟩ UseDebounce.DebounceEvent.tick =
          ⟨v, none⟩ := by
        simp [UseDebounce.debStep, hr]
      rw [hstep]
      exact debRun_ticks_noop delay v n
    · have hstep : UseDebounce.debStep delay ⟨d, some (r, v)⟩ UseDebounce.DebounceEvent.tick =
          ⟨d, some (r - 1, v)⟩ := by
        simp [UseDebounce.debStep, hr]
      rw [hstep]
      exact ih d (r - 1) (by omega) (by omega)

/-- A burst of re-renders each followed by a quiet gap shorter than `delay`
never commits: the committed value stays put and the pending timer holds the
last value with `delay - (last gap)` remaining. -/
theorem debRun_rapid {T : Type} (delay : ℕ) (vl : T) (gl : ℕ) (hgl : gl < delay) :
    ∀ (ps : List (T × ℕ)), (∀ q ∈ ps, q.2 < delay) →
      ∀ (v0 : T) (p0 : Option (ℕ × T)),
        UseDebounce.debRun delay ⟨v0, p0⟩ (UseDebounce.rapidEvents (ps ++ [(vl, gl)])) =
          ⟨v0, some (delay - gl, vl)⟩ := by
  intro ps
  induction ps with
  | nil =>
    intro _ v0 p0
    show UseDebounce.debRun delay ⟨v0, p0⟩
        (UseDebounce.DebounceEvent.render vl ::
          (List.replicate gl UseDebounce.DebounceEvent.tick ++ UseDebounce.rapidEvents [])) = _
    rw [debRun_cons]
    have hstep : UseDebounce.debStep delay ⟨v0, p0⟩ (UseDebounce.DebounceEvent.render vl) =
        ⟨v0, some (delay, vl)⟩ := rfl
    rw [hstep]
    show UseDebounce.debRun delay _ (List.replicate gl UseDebounce.DebounceEvent.tick ++ []) = _
    rw [List.append_nil]
    exact debRun_ticks_partial delay v0 vl gl delay hgl
  | cons hd tl ih =>
    intro hall v0 p0
    obtain ⟨v, g⟩ := hd
    have hg : g < delay := hall (v, g) (List.mem_cons_self (v, g) tl)
    have htl : ∀ q ∈ tl, q.2 < delay := fun q hq => hall q (List.mem_cons_of_mem (v, g) hq)
    show UseDebounce.debRun delay ⟨v0, p0⟩
        (UseDebounce.DebounceEvent.render v ::
          (List.replicate g UseDebounce.DebounceEvent.tick ++
            UseDebounce.rapidEvents (tl ++ [(vl, gl)]))) = _
    rw [debRun_cons]
    have hstep : UseDebounce.debStep delay ⟨v0, p0⟩ (UseDebounce.DebounceEvent.render v) =
        ⟨v0, some (delay, v)⟩ := rfl
    rw [hstep, debRun_append,
      debRun_ticks_partial delay v0 v g delay hg]
    exact ih htl v0 (some (delay - g, v))

/-- Claim C6: with `immediate = false`, every change of the value cancels the
pending commit and arms a fresh `delay`-ms timer, so a burst of changes each
arriving within the delay window collapses to a single commit: the debounced
output stays at the previously committed value throughout the burst, and
once `delay` ms elapse with no further change it becomes the last supplied
value. -/
theorem useDebounce_trailing_edge {T : Type} (delay : ℕ) (v0 vl : T)
    (ps : List (T × ℕ)) (gl : ℕ)
    (hps : ∀ q ∈ ps, q.2 < delay) (hgl : gl < delay) :
    (UseDebounce.debRun delay ⟨v0, none⟩
        (UseDebounce.rapidEvents (ps ++ [(vl, gl)]))).debounced = v0 ∧
    UseDebounce.debRun delay
        (UseDebounce.debRun delay ⟨v0, none⟩ (UseDebounce.rapidEvents (ps ++ [(vl, gl)])))
        (List.replicate delay UseDebounce.DebounceEvent.tick) =
      ⟨vl, none⟩ := by
  have h := debRun_rapid delay vl gl hgl ps hps v0 none
  refine ⟨by rw [h], ?_⟩
  rw [h]
  exact debRun_ticks_commit delay vl delay v0 (delay - gl) (by omega) (by omega)

/-- Witness for C6: the spec scenario — delay 500, initial value committed as
Hola, a burst Mundo, change1, change2, change3 within the window, then
500 ms of quiet commit change3. -/
theorem useDebounce_trailing_edge_witness :
    (∀ q ∈ ([(("Mundo" : String), 100), (("change1" : String), 100),
        (("change2" : String), 100)] : List (String × ℕ)), q.2 < 500) ∧
    (0 : ℕ) < 500 ∧
    ((UseDebounce.debRun 500 ⟨"Hola", none⟩
        (UseDebounce.rapidEvents
          ([(("Mundo" : String), 100), (("change1" : String), 100),
            (("change2" : String), 100)] ++ [(("change3" : String), 0)]))).debounced =
      "Hola" ∧
    UseDebounce.debRun 500
        (UseDebounce.debRun 500 ⟨"Hola", none⟩
          (UseDebounce.rapidEvents
            ([(("Mundo" : String), 100), (("change1" : String), 100),
              (("change2" : String), 100)] ++ [(("change3" : String), 0)])))
        (List.replicate 500 UseDebounce.DebounceEvent.tick) =
      ⟨"change3", none⟩) :=
  ⟨by decide, by decide,
    useDebounce_trailing_edge 500 ("Hola") ("change3")
      [(("Mundo" : String), 100), (("change1" : String), 100), (("change2" : String), 100)]
      0 (by decide) (by decide)⟩
